import Mathlib

/-!
Shallow embedding of `src/classes.py`: the `Seq` record class and the
`FastaReader` validation and parsing logic, modelled over Lean strings
(`String.data` gives the character list).  The file source is modelled as
either readable text or an I/O failure; Python's line iteration is the
split of the text at newline characters.
-/

namespace Classes

/-- Python `str.strip()` with no arguments over ASCII whitespace:
drop whitespace characters from both ends of a character list. -/
def stripChars (l : List Char) : List Char :=
  ((l.dropWhile Char.isWhitespace).reverse.dropWhile Char.isWhitespace).reverse

/-- `str.strip()` on strings. -/
def pyStrip (s : String) : String :=
  ⟨stripChars s.data⟩

/-- `str.replace(c, "")` for a one-character pattern: remove every
occurrence of the character. -/
def removeChar (c : Char) (s : String) : String :=
  ⟨s.data.filter (fun d => decide (d ≠ c))⟩

/-- `str.startswith(c)` for a one-character pattern: test the first character. -/
def pyStartsWith (s : String) (c : Char) : Bool :=
  match s.data with
  | [] => false
  | x :: _ => x == c

/-- `line[1:]`: drop the first character. -/
def pyDropFirst (s : String) : String :=
  ⟨s.data.drop 1⟩

/-- The `Seq` class of `classes.py`: a header and a sequence string. -/
structure Seq where
  header : String
  sequence : String
deriving DecidableEq

/-- `Seq.__init__`: `header.strip()` and
`sequence.strip().replace('\n', '').replace(' ', '')`. -/
def Seq.init (header sequence : String) : Seq :=
  { header := pyStrip header
    sequence := removeChar ' ' (removeChar '\n' (pyStrip sequence)) }

/-- `Seq.__str__`; `_format_sequence` returns `self.sequence` unwrapped. -/
def Seq.str (s : Seq) : String :=
  ">" ++ s.header ++ "\n" ++ s.sequence

/-- `Seq.__len__`. -/
def Seq.len (s : Seq) : Nat :=
  s.sequence.length

/-- `set('ACGTUacgtuNn-')` from `Seq.get_alphabet`. -/
def nucleotide_chars : List Char :=
  "ACGTUacgtuNn-".data

/-- `set('ACDEFGHIKLMNPQRSTVWYacdefghiklmnpqrstvwy*Xx-')` from `Seq.get_alphabet`. -/
def protein_chars : List Char :=
  "ACDEFGHIKLMNPQRSTVWYacdefghiklmnpqrstvwy*Xx-".data

/-- `Seq.get_alphabet`: empty sequence gives `'unknown'`; if every character
is in the nucleotide set the outer loop falls through to `'nucleotide'`;
otherwise the inner loop checks every character against the protein set and
returns `'protein'` or `'unknown'`. -/
def Seq.get_alphabet (s : Seq) : String :=
  if s.sequence = "" then "unknown"
  else if s.sequence.data.all (fun c => decide (c ∈ nucleotide_chars)) then "nucleotide"
  else if s.sequence.data.all (fun c => decide (c ∈ protein_chars)) then "protein"
  else "unknown"

/-- A FASTA source as `FastaReader` sees it: either readable decoded text,
or an I/O failure (the file cannot be opened, read or decoded). -/
inductive ReadResult where
  | content (text : String)
  | ioFailure
deriving DecidableEq

/-- Split a character list at newline characters: the line structure of the
source text.  Python's line iteration yields newline-terminated chunks, and
every use in `classes.py` strips the line immediately, so keeping or
dropping the trailing newline is immaterial. -/
def splitNl : List Char → List (List Char)
  | [] => [[]]
  | x :: xs =>
    match splitNl xs with
    | [] => [[]]
    | y :: ys => if x = '\n' then [] :: y :: ys else (x :: y) :: ys

/-- The lines of the source text. -/
def linesOf (t : String) : List String :=
  (splitNl t.data).map (fun l => ⟨l⟩)

/-- `file.readline()` without its trailing newline (the caller strips the
line right away, so the trailing newline never matters). -/
def firstLine (t : String) : String :=
  (linesOf t).headD ""

/-- `FastaReader.is_valid_fasta`: strip the first line read from the file
and test for the `'>'` marker; `IOError` and `UnicodeDecodeError` are
caught and yield `False`. -/
def is_valid_fasta : ReadResult → Bool
  | .ioFailure => false
  | .content t => pyStartsWith (pyStrip (firstLine t)) '>'

/-- The end-of-loop flush of `read_sequences`: the final
`if current_header is not None: yield Seq(...)`. -/
def flush (st : Option String) (body : List String) : List Seq :=
  match st with
  | none => []
  | some h => [Seq.init h (String.join body)]

/-- The line loop of `FastaReader.read_sequences` over the remaining lines,
carrying `current_header` and `current_sequence`: blank lines are skipped;
a marker line flushes the current record (when a header is held) and starts
a new one from `line[1:]`; any other line is appended to the body. -/
def processLines : List String → Option String → List String → List Seq
  | [], st, body => flush st body
  | l :: rest, st, body =>
    if pyStrip l = "" then
      processLines rest st body
    else if pyStartsWith (pyStrip l) '>' then
      flush st body ++ processLines rest (some (pyDropFirst (pyStrip l))) []
    else
      processLines rest st (body ++ [pyStrip l])

/-- The error raised by `read_sequences` when validation fails
(`ValueError: File ... does not conform to FASTA format`). -/
inductive FastaError where
  | malformedSource
deriving DecidableEq

/-- `FastaReader.read_sequences`: the validity check runs first and raises
when it fails; otherwise the line loop produces the records.  (The branch
pairing a valid verdict with an unreadable source is unreachable, since an
unreadable source never validates.) -/
def read_sequences (src : ReadResult) : Except FastaError (List Seq) :=
  if is_valid_fasta src then
    match src with
    | .content t => Except.ok (processLines (linesOf t) none [])
    | .ioFailure => Except.error FastaError.malformedSource
  else
    Except.error FastaError.malformedSource

/-- The spec's nucleotide character set, written from its words: the set
`{A, C, G, T, U, N, -}` taken case-insensitively, so both cases of each
letter belong to it. -/
def specNucSet : List Char :=
  ['A', 'a', 'C', 'c', 'G', 'g', 'T', 't', 'U', 'u', 'N', 'n', '-']

/-- The spec's protein character set, written from its words: the set
`{A, C, D, E, F, G, H, I, K, L, M, N, P, Q, R, S, T, V, W, Y, X, *, -}`
taken case-insensitively. -/
def specProtSet : List Char :=
  ['A', 'a', 'C', 'c', 'D', 'd', 'E', 'e', 'F', 'f', 'G', 'g', 'H', 'h',
   'I', 'i', 'K', 'k', 'L', 'l', 'M', 'm', 'N', 'n', 'P', 'p', 'Q', 'q',
   'R', 'r', 'S', 's', 'T', 't', 'V', 'v', 'W', 'w', 'Y', 'y', 'X', 'x',
   '*', '-']

/-- The classification rule exactly as the spec states it: Nucleotide when
every character is in the nucleotide set, otherwise Protein when every
character is in the protein set, otherwise Unknown; an empty residue
string is Unknown. -/
def specClassify (residues : String) : String :=
  if residues = "" then "unknown"
  else if residues.data.all (fun c => decide (c ∈ specNucSet)) then "nucleotide"
  else if residues.data.all (fun c => decide (c ∈ specProtSet)) then "protein"
  else "unknown"

lemma nucleotide_chars_mem (c : Char) : c ∈ nucleotide_chars ↔ c ∈ specNucSet :=
  List.Perm.mem_iff (by decide)

lemma protein_chars_mem (c : Char) : c ∈ protein_chars ↔ c ∈ specProtSet :=
  List.Perm.mem_iff (by decide)

/-- C1: the two-record source yields exactly the records (`a`, `ACGT`) and
(`b`, `MKL`) in order; a one-header source with body lines `ACGT`, `TTTT`,
`GGCC` yields exactly one record with sequence `ACGTTTTTGGCC`, also when
blank lines are interleaved. -/
theorem claim_c1 :
    read_sequences (ReadResult.content ">a\nACGT\n>b\nMKL\n") =
      Except.ok [{ header := "a", sequence := "ACGT" },
                 { header := "b", sequence := "MKL" }] ∧
    read_sequences (ReadResult.content ">h\nACGT\nTTTT\nGGCC\n") =
      Except.ok [{ header := "h", sequence := "ACGTTTTTGGCC" }] ∧
    read_sequences (ReadResult.content ">h\nACGT\n\nTTTT\n\nGGCC\n") =
      Except.ok [{ header := "h", sequence := "ACGTTTTTGGCC" }] :=
  ⟨rfl, rfl, rfl⟩

/-- C2: `get_alphabet` agrees with the spec's classification rule on every
record: all characters in the nucleotide set gives Nucleotide, otherwise
all in the protein set gives Protein, otherwise Unknown, and the empty
sequence gives Unknown; the nucleotide test takes precedence. -/
theorem claim_c2 (s : Seq) : s.get_alphabet = specClassify s.sequence := by
  have e1 : (fun c => decide (c ∈ nucleotide_chars)) =
      (fun c => decide (c ∈ specNucSet)) :=
    funext fun c => by rw [decide_eq_decide]; exact nucleotide_chars_mem c
  have e2 : (fun c => decide (c ∈ protein_chars)) =
      (fun c => decide (c ∈ specProtSet)) :=
    funext fun c => by rw [decide_eq_decide]; exact protein_chars_mem c
  simp only [Seq.get_alphabet, specClassify, e1, e2]

/-- Witness for C2 at the all-nucleotide record `ACGT`, which both
classifiers put in the nucleotide class by precedence. -/
theorem claim_c2_witness :
    (Seq.init "p" "ACGT").get_alphabet =
      specClassify (Seq.init "p" "ACGT").sequence :=
  claim_c2 (Seq.init "p" "ACGT")

/-- C3: the code checks only the literal first line of the source, not the
first non-empty line: a source beginning with a blank line followed by a
marker line is rejected by `is_valid_fasta`, although its first non-empty
line does start with the marker. -/
theorem claim_c3_code_eval :
    is_valid_fasta (ReadResult.content "\n>a\nACGT\n") = false ∧
    pyStartsWith (pyStrip ">a") '>' = true :=
  ⟨rfl, rfl⟩

/-- C4 counterexample: a body with an internal tab keeps the tab in the
constructed sequence, so the sequence can contain whitespace and differs
from the body with all whitespace removed. -/
theorem claim_c4_counterexample :
    (Seq.init "h" "AC\tGT").sequence = "AC\tGT" ∧
    ((Seq.init "h" "AC\tGT").sequence.data.any (fun c => c.isWhitespace)) = true ∧
    (Seq.init "h" "AC\tGT").sequence ≠ "ACGT" :=
  ⟨rfl, rfl, by decide⟩

/-- C5 counterexample: a header with leading whitespace does not round-trip
(the rebuilt record's header is the stripped form), and a whitespace-free
body that begins with the marker does not round-trip either (re-parsing
splits it into a second record). -/
theorem claim_c5_counterexample :
    read_sequences (ReadResult.content (Seq.str (Seq.init " a" "G"))) =
      Except.ok [{ header := "a", sequence := "G" }] ∧
    (" a" : String) ≠ "a" ∧
    read_sequences (ReadResult.content (Seq.str (Seq.init "h" ">x"))) =
      Except.ok [{ header := "h", sequence := "" },
                 { header := "x", sequence := "" }] :=
  ⟨rfl, by decide, rfl⟩

/-- C6: whenever validation fails, `read_sequences` raises the malformed
source error and produces no record at all. -/
theorem claim_c6 (src : ReadResult) (h : is_valid_fasta src = false) :
    read_sequences src = Except.error FastaError.malformedSource := by
  unfold read_sequences
  rw [h]
  simp

/-- Witness for C6 at the concrete markerless source `ACGT`. -/
theorem claim_c6_witness :
    is_valid_fasta (ReadResult.content "ACGT\n") = false ∧
    read_sequences (ReadResult.content "ACGT\n") =
      Except.error FastaError.malformedSource :=
  ⟨rfl, claim_c6 (ReadResult.content "ACGT\n") rfl⟩

/-- C7: `is_valid_fasta` is a total boolean function (it never raises), an
I/O failure validates to `false`, and that verdict is identical to the one
for a pure format failure. -/
theorem claim_c7 :
    is_valid_fasta ReadResult.ioFailure = false ∧
    is_valid_fasta (ReadResult.content "ACGT\n") = false ∧
    is_valid_fasta ReadResult.ioFailure = is_valid_fasta (ReadResult.content "ACGT\n") ∧
    (∀ src : ReadResult, is_valid_fasta src = true ∨ is_valid_fasta src = false) :=
  ⟨rfl, rfl, rfl, fun src => by
    cases h : is_valid_fasta src
    · exact Or.inr rfl
    · exact Or.inl rfl⟩

lemma pyStartsWith_ne_empty {s : String} {c : Char}
    (h : pyStartsWith s c = true) : s ≠ "" := by
  intro he
  subst he
  exact Bool.noConfusion h

lemma processLines_nil (st : Option String) (body : List String) :
    processLines [] st body = flush st body := rfl

lemma processLines_blank (l : String) (rest : List String) (st : Option String)
    (body : List String) (h : pyStrip l = "") :
    processLines (l :: rest) st body = processLines rest st body := by
  simp [processLines, h]

lemma processLines_marker (l : String) (rest : List String) (st : Option String)
    (body : List String) (h : pyStartsWith (pyStrip l) '>' = true) :
    processLines (l :: rest) st body =
      flush st body ++ processLines rest (some (pyDropFirst (pyStrip l))) [] := by
  have hne : pyStrip l ≠ "" := pyStartsWith_ne_empty h
  simp [processLines, hne, h]

lemma processLines_bodyline (l : String) (rest : List String) (st : Option String)
    (body : List String) (h1 : pyStrip l ≠ "")
    (h2 : pyStartsWith (pyStrip l) '>' = false) :
    processLines (l :: rest) st body = processLines rest st (body ++ [pyStrip l]) := by
  simp [processLines, h1, h2]

lemma head?_dropWhile (p : Char → Bool) (l : List Char) (c : Char)
    (h : (l.dropWhile p).head? = some c) : p c = false := by
  induction l with
  | nil => exact Option.noConfusion h
  | cons x xs ih =>
    rw [List.dropWhile_cons] at h
    split at h
    · exact ih h
    · next hx =>
      simp only [List.head?_cons, Option.some.injEq] at h
      subst h
      exact Bool.eq_false_iff.mpr hx

lemma getLast?_dropWhile (p : Char → Bool) (l : List Char)
    (hne : l.dropWhile p ≠ []) : (l.dropWhile p).getLast? = l.getLast? := by
  induction l with
  | nil => exact absurd rfl hne
  | cons x xs ih =>
    rw [List.dropWhile_cons]
    rw [List.dropWhile_cons] at hne
    split
    · next hx =>
      rw [if_pos hx] at hne
      rw [ih hne]
      have hxs : xs ≠ [] := by
        intro h0
        subst h0
        exact hne rfl
      cases xs with
      | nil => exact absurd rfl hxs
      | cons b bs => rw [List.getLast?_cons_cons]
    · rfl

/-- The string has no leading and no trailing whitespace character. -/
def noOuterWs (s : String) : Bool :=
  (match s.data.head? with
   | none => true
   | some c => !c.isWhitespace) &&
  (match s.data.getLast? with
   | none => true
   | some c => !c.isWhitespace)

lemma noOuterWs_stripChars (l : List Char) : noOuterWs ⟨stripChars l⟩ = true := by
  rw [noOuterWs, Bool.and_eq_true]
  constructor
  · show (match (stripChars l).head? with
         | none => true
         | some c => !c.isWhitespace) = true
    rw [stripChars, List.head?_reverse]
    cases hg : (((l.dropWhile Char.isWhitespace).reverse).dropWhile
        Char.isWhitespace).getLast? with
    | none => rfl
    | some c =>
      have hne : ((l.dropWhile Char.isWhitespace).reverse).dropWhile
          Char.isWhitespace ≠ [] := by
        intro h0
        rw [h0] at hg
        exact Option.noConfusion hg
      rw [getLast?_dropWhile _ _ hne, List.getLast?_reverse] at hg
      show (!c.isWhitespace) = true
      rw [head?_dropWhile _ _ _ hg]
      rfl
  · show (match (stripChars l).getLast? with
         | none => true
         | some c => !c.isWhitespace) = true
    rw [stripChars, List.getLast?_reverse]
    cases hh : (((l.dropWhile Char.isWhitespace).reverse).dropWhile
        Char.isWhitespace).head? with
    | none => rfl
    | some c =>
      show (!c.isWhitespace) = true
      rw [head?_dropWhile _ _ _ hh]
      rfl

lemma dropWhile_eq_self_of_head (p : Char → Bool) (l : List Char)
    (h : ∀ c, l.head? = some c → p c = false) : l.dropWhile p = l := by
  cases l with
  | nil => rfl
  | cons x xs =>
    have hx : p x = false := h x rfl
    rw [List.dropWhile_cons, if_neg]
    rw [hx]
    exact Bool.false_ne_true

lemma pyStrip_eq_self {s : String} (h : noOuterWs s = true) : pyStrip s = s := by
  rw [noOuterWs, Bool.and_eq_true] at h
  obtain ⟨h1, h2⟩ := h
  have hh : ∀ c, s.data.head? = some c → c.isWhitespace = false := by
    intro c hc
    rw [hc] at h1
    simpa using h1
  have hl : ∀ c, (s.data.reverse).head? = some c → c.isWhitespace = false := by
    intro c hc
    rw [List.head?_reverse] at hc
    rw [hc] at h2
    simpa using h2
  show (⟨stripChars s.data⟩ : String) = s
  rw [stripChars, dropWhile_eq_self_of_head _ _ hh,
    dropWhile_eq_self_of_head _ _ hl, List.reverse_reverse]

lemma mem_stripChars {c : Char} {l : List Char} (h : c ∈ stripChars l) : c ∈ l := by
  rw [stripChars, List.mem_reverse] at h
  have h1 := (List.dropWhile_sublist
    (l := (l.dropWhile Char.isWhitespace).reverse)
    (p := Char.isWhitespace)).mem h
  rw [List.mem_reverse] at h1
  exact (List.dropWhile_sublist (l := l) (p := Char.isWhitespace)).mem h1

/-- C8 counterexample: the source header line `>>x` yields a record whose
header `>x` still starts with the marker character. -/
theorem claim_c8_counterexample :
    read_sequences (ReadResult.content ">>x\nACGT\n") =
      Except.ok [{ header := ">x", sequence := "ACGT" }] ∧
    pyStartsWith ">x" '>' = true :=
  ⟨rfl, rfl⟩

lemma flush_map_header (st : Option String) (body : List String) :
    (flush st body).map Seq.header = (st.map pyStrip).toList := by
  cases st <;> rfl

lemma processLines_map_header (lines : List String) (st : Option String)
    (body : List String) :
    (processLines lines st body).map Seq.header =
      (st.map pyStrip).toList ++
        (lines.filter (fun l => pyStartsWith (pyStrip l) '>')).map
          (fun l => pyStrip (pyDropFirst (pyStrip l))) := by
  induction lines generalizing st body with
  | nil => simp [processLines_nil, flush_map_header]
  | cons l rest ih =>
    by_cases hb : pyStrip l = ""
    · have hm : pyStartsWith (pyStrip l) '>' = false := by rw [hb]; rfl
      rw [processLines_blank l rest st body hb]
      simp [hm, ih]
    · cases hm : pyStartsWith (pyStrip l) '>' with
      | true =>
        rw [processLines_marker l rest st body hm]
        simp [flush_map_header, ih, hm]
      | false =>
        rw [processLines_bodyline l rest st body hb hm]
        simp [hm, ih]

/-- C9: on every source that validates, the records are in source order,
there are exactly as many of them as lines whose stripped form starts with
the marker, and the i-th record's header is the i-th such line with its
marker removed and whitespace stripped. -/
theorem claim_c9 (t : String)
    (hv : is_valid_fasta (ReadResult.content t) = true) :
    ∃ recs : List Seq,
      read_sequences (ReadResult.content t) = Except.ok recs ∧
      recs.length =
        ((linesOf t).filter (fun l => pyStartsWith (pyStrip l) '>')).length ∧
      recs.map Seq.header =
        ((linesOf t).filter (fun l => pyStartsWith (pyStrip l) '>')).map
          (fun l => pyStrip (pyDropFirst (pyStrip l))) := by
  refine ⟨processLines (linesOf t) none [], ?_, ?_, ?_⟩
  · simp [read_sequences, hv]
  · have h := congrArg List.length (processLines_map_header (linesOf t) none [])
    simpa using h
  · simpa using processLines_map_header (linesOf t) none []

/-- Witness for C9 at the concrete source consisting of `>a` and `ACGT`. -/
theorem claim_c9_witness :
    ∃ recs : List Seq,
      read_sequences (ReadResult.content ">a\nACGT\n") = Except.ok recs ∧
      recs.length =
        ((linesOf ">a\nACGT\n").filter
          (fun l => pyStartsWith (pyStrip l) '>')).length ∧
      recs.map Seq.header =
        ((linesOf ">a\nACGT\n").filter (fun l => pyStartsWith (pyStrip l) '>')).map
          (fun l => pyStrip (pyDropFirst (pyStrip l))) :=
  claim_c9 ">a\nACGT\n" rfl

/-- C10: a header line immediately followed by another header line, or by
the end of the source, produces a record with empty sequence (no body line
is required), and that record classifies as unknown. -/
theorem claim_c10 (l1 l2 : String) (st : Option String) (body rest : List String)
    (h1 : pyStartsWith (pyStrip l1) '>' = true)
    (h2 : pyStartsWith (pyStrip l2) '>' = true) :
    ((Seq.init (pyDropFirst (pyStrip l1)) "").sequence = "" ∧
     (Seq.init (pyDropFirst (pyStrip l1)) "").get_alphabet = "unknown") ∧
    (∃ pre : List Seq, processLines [l1] st body =
        pre ++ [Seq.init (pyDropFirst (pyStrip l1)) ""]) ∧
    (∃ pre : List Seq, processLines (l1 :: l2 :: rest) st body =
        pre ++ Seq.init (pyDropFirst (pyStrip l1)) "" ::
          processLines rest (some (pyDropFirst (pyStrip l2))) []) := by
  have hs : (Seq.init (pyDropFirst (pyStrip l1)) "").sequence = "" := rfl
  refine ⟨⟨hs, ?_⟩, ?_, ?_⟩
  · rw [Seq.get_alphabet, hs]
    rfl
  · rw [processLines_marker l1 [] st body h1, processLines_nil]
    exact ⟨flush st body, rfl⟩
  · rw [processLines_marker l1 (l2 :: rest) st body h1,
      processLines_marker l2 rest _ [] h2]
    exact ⟨flush st body, rfl⟩

/-- Witness for C10 at the two-header source `>a`, `>b`. -/
theorem claim_c10_witness :
    ((Seq.init (pyDropFirst (pyStrip ">a")) "").sequence = "" ∧
     (Seq.init (pyDropFirst (pyStrip ">a")) "").get_alphabet = "unknown") ∧
    (∃ pre : List Seq, processLines [">a"] none [] =
        pre ++ [Seq.init (pyDropFirst (pyStrip ">a")) ""]) ∧
    (∃ pre : List Seq, processLines [">a", ">b"] none [] =
        pre ++ Seq.init (pyDropFirst (pyStrip ">a")) "" ::
          processLines [] (some (pyDropFirst (pyStrip ">b"))) []) :=
  claim_c10 ">a" ">b" none [] [] rfl rfl

lemma processLines_mem {r : Seq} (lines : List String) (st : Option String)
    (body : List String) (h : r ∈ processLines lines st body) :
    ∃ hh bb, r = Seq.init hh bb := by
  induction lines generalizing st body with
  | nil =>
    cases st with
    | none => exact absurd h (List.not_mem_nil r)
    | some hh =>
      rw [processLines_nil,
        show flush (some hh) body = [Seq.init hh (String.join body)] from rfl,
        List.mem_singleton] at h
      exact ⟨hh, String.join body, h⟩
  | cons l rest ih =>
    by_cases hb : pyStrip l = ""
    · rw [processLines_blank l rest st body hb] at h
      exact ih st body h
    · cases hm : pyStartsWith (pyStrip l) '>' with
      | true =>
        rw [processLines_marker l rest st body hm, List.mem_append] at h
        rcases h with h | h
        · cases st with
          | none => exact absurd h (List.not_mem_nil r)
          | some hh =>
            rw [show flush (some hh) body = [Seq.init hh (String.join body)] from rfl,
              List.mem_singleton] at h
            exact ⟨hh, String.join body, h⟩
        · exact ih _ _ h
      | false =>
        rw [processLines_bodyline l rest st body hb hm] at h
        exact ih _ _ h

/-- C8 amended: every record built by the constructor or emitted by the
line loop has a header with no leading and no trailing whitespace.  (The
marker part of the claim fails: only one leading marker is removed, so a
source line `>>x` produces a header that still starts with the marker.) -/
theorem claim_c8_amended (h s : String) (lines : List String) (st : Option String)
    (body : List String) (r : Seq) (hr : r ∈ processLines lines st body) :
    noOuterWs (Seq.init h s).header = true ∧ noOuterWs r.header = true := by
  constructor
  · exact noOuterWs_stripChars h.data
  · obtain ⟨hh, bb, rfl⟩ := processLines_mem lines st body hr
    exact noOuterWs_stripChars hh.data

/-- Witness for C8 amended at a padded constructor header and at the record
parsed from the line `>a`. -/
theorem claim_c8_amended_witness :
    noOuterWs (Seq.init " x " "A").header = true ∧
    noOuterWs (Seq.init "a" "").header = true :=
  claim_c8_amended " x " "A" [">a"] none [] (Seq.init "a" "") (by decide)

lemma filter_dropWhile (p q : Char → Bool) (l : List Char)
    (hpq : ∀ c, q c = true → p c = false) :
    (l.dropWhile q).filter p = l.filter p := by
  induction l with
  | nil => rfl
  | cons x xs ih =>
    rw [List.dropWhile_cons]
    split
    · next hx =>
      rw [ih, List.filter_cons_of_neg]
      rw [hpq x hx]
      exact Bool.false_ne_true
    · rfl

lemma filter_stripChars (p : Char → Bool) (l : List Char)
    (hws : ∀ c, c.isWhitespace = true → p c = false) :
    (stripChars l).filter p = l.filter p := by
  rw [stripChars, List.filter_reverse, filter_dropWhile p _ _ hws,
    List.filter_reverse, List.reverse_reverse, filter_dropWhile p _ _ hws]

/-- C4 amended: when every whitespace character of the body is a space or a
newline, the constructed sequence contains no whitespace at all and equals
the body with all whitespace removed, in original order.  (An internal tab
or carriage return would survive, per the counterexample.) -/
theorem claim_c4_amended (h b : String)
    (hb : ∀ c ∈ b.data, c.isWhitespace = true → c = ' ' ∨ c = '\n') :
    (Seq.init h b).sequence.data.all (fun c => !c.isWhitespace) = true ∧
    (Seq.init h b).sequence.data = b.data.filter (fun c => !c.isWhitespace) := by
  have hseq : (Seq.init h b).sequence.data =
      ((stripChars b.data).filter (fun d => decide (d ≠ '\n'))).filter
        (fun d => decide (d ≠ ' ')) := rfl
  have hcong : ∀ c ∈ stripChars b.data,
      (decide (c ≠ ' ') && decide (c ≠ '\n')) = !c.isWhitespace := by
    intro c hc
    have hcb : c ∈ b.data := mem_stripChars hc
    by_cases hw : c.isWhitespace = true
    · rcases hb c hcb hw with rfl | rfl <;> rfl
    · have hw' : c.isWhitespace = false := Bool.eq_false_iff.mpr hw
      have hsp : c ≠ ' ' := by
        intro e
        subst e
        exact hw rfl
      have hnl : c ≠ '\n' := by
        intro e
        subst e
        exact hw rfl
      simp [hsp, hnl, hw']
  have hmain : (Seq.init h b).sequence.data =
      b.data.filter (fun c => !c.isWhitespace) := by
    rw [hseq, List.filter_filter, List.filter_congr hcong,
      filter_stripChars _ _ (fun c hc => by rw [hc]; rfl)]
  refine ⟨?_, hmain⟩
  rw [hmain, List.all_eq_true]
  intro c hc
  exact (List.mem_filter.mp hc).2

/-- Witness for C4 amended at a body holding spaces and a newline. -/
theorem claim_c4_amended_witness :
    (Seq.init "h" " AC G\nT ").sequence.data.all (fun c => !c.isWhitespace) = true ∧
    (Seq.init "h" " AC G\nT ").sequence.data =
      " AC G\nT ".data.filter (fun c => !c.isWhitespace) :=
  claim_c4_amended "h" " AC G\nT " (by decide)

lemma splitNl_cons (x : Char) (xs : List Char) :
    splitNl (x :: xs) =
      match splitNl xs with
      | [] => [[]]
      | y :: ys => if x = '\n' then [] :: y :: ys else (x :: y) :: ys := rfl

lemma splitNl_append (l1 l2 : List Char) (y : List Char) (ys : List (List Char))
    (h2 : splitNl l2 = y :: ys) (h1 : '\n' ∉ l1) :
    splitNl (l1 ++ l2) = (l1 ++ y) :: ys := by
  induction l1 with
  | nil => simpa using h2
  | cons x xs ih =>
    have hx : x ≠ '\n' := fun e => h1 (e ▸ List.mem_cons_self x xs)
    have hxs : '\n' ∉ xs := fun hm => h1 (List.mem_cons_of_mem _ hm)
    rw [List.cons_append, splitNl_cons, ih hxs]
    simp [hx]

lemma splitNl_no_newline (l : List Char) (h : '\n' ∉ l) : splitNl l = [l] := by
  have h0 : splitNl ([] : List Char) = [] :: [] := rfl
  have := splitNl_append l [] [] [] h0 h
  simpa using this

lemma noOuterWs_of_all {s : String} (h : ∀ c ∈ s.data, c.isWhitespace = false) :
    noOuterWs s = true := by
  rw [noOuterWs, Bool.and_eq_true]
  constructor
  · cases hh : s.data.head? with
    | none => rfl
    | some c =>
      show (!c.isWhitespace) = true
      obtain ⟨ys, hy⟩ := List.head?_eq_some_iff.mp hh
      have hc : c ∈ s.data := by rw [hy]; exact List.mem_cons_self c ys
      rw [h c hc]
      rfl
  · cases hg : s.data.getLast? with
    | none => rfl
    | some c =>
      show (!c.isWhitespace) = true
      rw [h c (List.mem_of_getLast?_eq_some hg)]
      rfl

lemma noOuterWs_marker {H : String} (h : noOuterWs H = true) :
    noOuterWs (⟨'>' :: H.data⟩ : String) = true := by
  rw [noOuterWs, Bool.and_eq_true] at h
  obtain ⟨-, h2⟩ := h
  rw [noOuterWs, Bool.and_eq_true]
  refine ⟨rfl, ?_⟩
  show (match ('>' :: H.data).getLast? with
        | none => true
        | some c => !c.isWhitespace) = true
  cases hd : H.data with
  | nil => rfl
  | cons b bs =>
    rw [List.getLast?_cons_cons]
    rw [hd] at h2
    exact h2

lemma Seq_init_clean {H B : String} (hH : noOuterWs H = true)
    (hB : ∀ c ∈ B.data, c.isWhitespace = false) :
    Seq.init H B = ⟨H, B⟩ := by
  have hBs : pyStrip B = B := pyStrip_eq_self (noOuterWs_of_all hB)
  have r1 : removeChar '\n' B = B := by
    have h' : ∀ a ∈ B.data, (fun d => decide (d ≠ '\n')) a = true := by
      intro a ha
      simp only [decide_eq_true_eq]
      intro e
      subst e
      exact absurd (hB '\n' ha) (by decide)
    show (⟨B.data.filter (fun d => decide (d ≠ '\n'))⟩ : String) = B
    rw [List.filter_eq_self.mpr h']
  have r2 : removeChar ' ' B = B := by
    have h' : ∀ a ∈ B.data, (fun d => decide (d ≠ ' ')) a = true := by
      intro a ha
      simp only [decide_eq_true_eq]
      intro e
      subst e
      exact absurd (hB ' ' ha) (by decide)
    show (⟨B.data.filter (fun d => decide (d ≠ ' '))⟩ : String) = B
    rw [List.filter_eq_self.mpr h']
  rw [Seq.init, pyStrip_eq_self hH, hBs, r1, r2]

/-- C5 amended: for a header with no leading or trailing whitespace and no
embedded newline, and a single-line body with no whitespace characters that
does not begin with the marker, re-parsing the record's string form yields
exactly one record with that header and that body as sequence.  (The
counterexample shows the original claim fails for a padded header and for a
body beginning with the marker.) -/
theorem claim_c5_amended (H B : String)
    (hH : noOuterWs H = true)
    (hHn : '\n' ∉ H.data)
    (hB : ∀ c ∈ B.data, c.isWhitespace = false)
    (hBm : pyStartsWith B '>' = false) :
    read_sequences (ReadResult.content (Seq.str (Seq.init H B))) =
      Except.ok [{ header := H, sequence := B }] := by
  have hinit : Seq.init H B = ⟨H, B⟩ := Seq_init_clean hH hB
  have hBnl : '\n' ∉ B.data := fun hm => absurd (hB '\n' hm) (by decide)
  have hstr : (Seq.str (⟨H, B⟩ : Seq)).data = ('>' :: H.data) ++ '\n' :: B.data := by
    show (">" ++ H ++ "\n" ++ B).data = _
    simp [String.data_append]
  have hmarkNoNl : '\n' ∉ '>' :: H.data := by
    intro hm
    rcases List.mem_cons.mp hm with e | e
    · exact absurd e.symm (by decide)
    · exact hHn e
  have hsplit2 : splitNl ('\n' :: B.data) = [] :: [B.data] := by
    rw [splitNl_cons, splitNl_no_newline B.data hBnl]
    simp
  have hlines : linesOf (Seq.str (⟨H, B⟩ : Seq)) = [⟨'>' :: H.data⟩, B] := by
    rw [linesOf, hstr,
      splitNl_append ('>' :: H.data) ('\n' :: B.data) [] [B.data] hsplit2 hmarkNoNl]
    simp
  have hmark : noOuterWs (⟨'>' :: H.data⟩ : String) = true := noOuterWs_marker hH
  have hstrip1 : pyStrip ⟨'>' :: H.data⟩ = ⟨'>' :: H.data⟩ := pyStrip_eq_self hmark
  have hv : is_valid_fasta (ReadResult.content (Seq.str (⟨H, B⟩ : Seq))) = true := by
    show pyStartsWith (pyStrip (firstLine (Seq.str (⟨H, B⟩ : Seq)))) '>' = true
    rw [firstLine, hlines]
    show pyStartsWith (pyStrip ⟨'>' :: H.data⟩) '>' = true
    rw [hstrip1]
    rfl
  rw [hinit, read_sequences, hv]
  show Except.ok (processLines (linesOf (Seq.str (⟨H, B⟩ : Seq))) none []) = _
  rw [hlines,
    processLines_marker _ _ _ _ (by rw [hstrip1]; rfl), hstrip1]
  by_cases hBe : B = ""
  · subst hBe
    rw [processLines_blank "" [] _ _ (show pyStrip "" = "" from rfl),
      processLines_nil]
    have hempty : Seq.init H "" = ⟨H, ""⟩ :=
      Seq_init_clean hH (fun c hc => absurd hc (List.not_mem_nil c))
    show (Except.ok [Seq.init H ""] : Except FastaError (List Seq)) =
      Except.ok [{ header := H, sequence := "" }]
    rw [hempty]
  · have hBs : pyStrip B = B := pyStrip_eq_self (noOuterWs_of_all hB)
    rw [processLines_bodyline _ _ _ _ (by rw [hBs]; exact hBe)
      (by rw [hBs]; exact hBm), processLines_nil, hBs]
    show (Except.ok [Seq.init H B] : Except FastaError (List Seq)) =
      Except.ok [{ header := H, sequence := B }]
    rw [hinit]

/-- Witness for C5 amended at header `seq1` and body `ACGT`. -/
theorem claim_c5_amended_witness :
    read_sequences (ReadResult.content (Seq.str (Seq.init "seq1" "ACGT"))) =
      Except.ok [{ header := "seq1", sequence := "ACGT" }] :=
  claim_c5_amended "seq1" "ACGT" (by decide) (by decide) (by decide) (by decide)

end Classes
